import Mathlib

/-!
Verification of the workflow orchestration / status-propagation core of the
`kobra-full-stack-ai-1` backend against its natural-language specification.

The definitions below are shallow embeddings of the Python source:

* `StatusRecord`, `applyUpdate`, `runCalls` embed
  `app/database/status.py` (`StatusSchema`, `StatusDB.update_step_status`);
* `StatusDoc`, `create_workflow_status`, `cleanup_duplicate_status_documents`,
  `get_workflow_progress` embed the store-level operations of the same file;
* `run_complete_workflow` embeds
  `app/services/workflow/main.py` (`PinterestWorkflowHandler.run_complete_workflow`
  and the phase methods it drives);
* `aiValidationStatusCalls` / `runStatusCalls` embed
  `WorkflowOrchestrator.run_ai_validation_workflow`;
* `Hub`, `disconnect`, `send_status_update` embed
  `app/services/websocket/manager.py` (`WebSocketManager`);
* `get_prompt_status` embeds `app/routes/main.py::get_prompt_status`;
* `pinApprovalStatus` embeds the pin-storing step of
  `app/routers/prompts.py::process_prompt_background`;
* `get_prompt_pins_stats` embeds the aggregate computation of
  `app/routes/main.py::get_prompt_pins`.

Machine floats are modelled as rationals (`Rat`); `datetime.now()` values are
modelled as abstract clock ticks (`Nat`) supplied to each operation.
-/

/-! ## StatusRecord and `update_step_status` (app/database/status.py) -/

/-- One workflow-status document, after `StatusSchema`:
`prompt_id` is carried at store level (`StatusDoc`), the remaining fields are
exactly those of the schema. -/
structure StatusRecord where
  overall_status : String
  current_step : Nat
  total_steps : Nat
  progress : Rat
  messages : List String
  started_at : Nat
  completed_at : Option Nat
  deriving Repr, DecidableEq

/-- The fresh record inserted by `StatusDB.create_workflow_status`
(`status_data` literal, lines 44-53 of status.py). -/
def createState (now : Nat) : StatusRecord :=
  { overall_status := "pending"
    current_step := 0
    total_steps := 0
    progress := 0
    messages := []
    started_at := now
    completed_at := none }

/-- One invocation of `StatusDB.update_step_status`: the `status`, optional
`message` and `progress` arguments, plus the value of `datetime.now()` at the
time of the call. -/
structure UpdateCall where
  status : String
  message : Option String
  progress : Option Rat
  now : Nat
  deriving Repr, DecidableEq

/-- Python truthiness of the `message` argument: `if message:` is taken for a
non-`None`, non-empty string. -/
def msgTruthy : Option String → Bool
  | none => false
  | some m => !(m == "")

/-- The document transformation performed by `StatusDB.update_step_status`
(lines 77-124 of status.py): `overall_status` is always overwritten; under
`if message:` the message is pushed, `current_step` incremented, and
`total_steps` raised to the new `current_step` when it was lower; a provided
`progress` always overwrites; `status == "completed"` sets `completed_at` to
now. -/
def applyUpdate (doc : StatusRecord) (c : UpdateCall) : StatusRecord :=
  let d1 := { doc with overall_status := c.status }
  let d2 :=
    if msgTruthy c.message then
      { d1 with
        messages := d1.messages ++ [c.message.getD ""]
        current_step := doc.current_step + 1
        total_steps :=
          if doc.total_steps < doc.current_step + 1 then doc.current_step + 1
          else doc.total_steps }
    else d1
  let d3 :=
    match c.progress with
    | some p => { d2 with progress := p }
    | none => d2
  if c.status == "completed" then { d3 with completed_at := some c.now } else d3

/-- A sequence of `update_step_status` calls applied to one instance's
record (the orchestrator is the single writer, so the calls form a list). -/
def runCalls (doc : StatusRecord) (cs : List UpdateCall) : StatusRecord :=
  cs.foldl applyUpdate doc

theorem applyUpdate_current_step (doc : StatusRecord) (c : UpdateCall) :
    (applyUpdate doc c).current_step
      = doc.current_step + (if msgTruthy c.message then 1 else 0) := by
  unfold applyUpdate
  rcases h : c.progress with _ | p <;>
    rcases hm : msgTruthy c.message with _ | _ <;>
      by_cases hc : c.status == "completed" <;> simp [h, hm, hc]

theorem applyUpdate_total_steps_ge (doc : StatusRecord) (c : UpdateCall)
    (h : doc.current_step ≤ doc.total_steps) :
    (applyUpdate doc c).current_step ≤ (applyUpdate doc c).total_steps := by
  unfold applyUpdate
  rcases hp : c.progress with _ | p <;>
    rcases hm : msgTruthy c.message with _ | _ <;>
      by_cases hc : c.status == "completed" <;>
        simp [hp, hm, hc] <;> (try split) <;> omega

theorem applyUpdate_completed_at (doc : StatusRecord) (c : UpdateCall) :
    (applyUpdate doc c).completed_at
      = if c.status == "completed" then some c.now else doc.completed_at := by
  unfold applyUpdate
  rcases hp : c.progress with _ | p <;>
    rcases hm : msgTruthy c.message with _ | _ <;>
      by_cases hc : c.status == "completed" <;> simp [hp, hm, hc]

theorem runCalls_append (doc : StatusRecord) (as bs : List UpdateCall) :
    runCalls doc (as ++ bs) = runCalls (runCalls doc as) bs := by
  simp [runCalls, List.foldl_append]

theorem runCalls_take_succ (doc : StatusRecord) (cs : List UpdateCall)
    (i : Nat) (h : i < cs.length) :
    runCalls doc (cs.take (i + 1))
      = applyUpdate (runCalls doc (cs.take i)) (cs.get ⟨i, h⟩) := by
  rw [List.take_succ]
  have hg : cs[i]? = some (cs.get ⟨i, h⟩) := by
    rw [List.getElem?_eq_getElem h]
    simp [List.get_eq_getElem]
  rw [hg]
  show runCalls doc (cs.take i ++ [cs.get ⟨i, h⟩]) = _
  rw [runCalls_append]
  rfl

theorem runCalls_step_mono (doc : StatusRecord) (cs : List UpdateCall)
    (n : Nat) :
    (runCalls doc (cs.take n)).current_step
      ≤ (runCalls doc (cs.take (n + 1))).current_step := by
  by_cases h : n < cs.length
  · rw [runCalls_take_succ doc cs n h, applyUpdate_current_step]
    split <;> omega
  · have hle : cs.length ≤ n := Nat.le_of_not_lt h
    rw [List.take_of_length_le hle, List.take_of_length_le (Nat.le_succ_of_le hle)]

theorem runCalls_invariant (doc : StatusRecord) (cs : List UpdateCall)
    (h0 : doc.current_step ≤ doc.total_steps) (n : Nat) :
    (runCalls doc (cs.take n)).current_step
      ≤ (runCalls doc (cs.take n)).total_steps := by
  induction n with
  | zero => simpa [runCalls] using h0
  | succ k ih =>
      by_cases h : k < cs.length
      · rw [runCalls_take_succ doc cs k h]
        exact applyUpdate_total_steps_ge _ _ ih
      · have hle : cs.length ≤ k := Nat.le_of_not_lt h
        rw [List.take_of_length_le (Nat.le_succ_of_le hle)]
        rw [List.take_of_length_le hle] at ih
        exact ih

/-- C2: for every sequence of `update_step_status` calls on one instance's
StatusRecord (starting from any record satisfying the basic invariant, in
particular from the freshly created one), `current_step` is monotonically
non-decreasing, it increases by exactly 1 on a call when and only when a
(non-empty, Python-truthy) message is supplied on that call, and after every
update `total_steps ≥ current_step` holds. -/
theorem status_steps_monotone_and_bounded (doc : StatusRecord)
    (h0 : doc.current_step ≤ doc.total_steps) (cs : List UpdateCall) :
    (∀ i j, i ≤ j →
        (runCalls doc (cs.take i)).current_step
          ≤ (runCalls doc (cs.take j)).current_step) ∧
    (∀ n, (runCalls doc (cs.take n)).current_step
        ≤ (runCalls doc (cs.take n)).total_steps) ∧
    (∀ i, (h : i < cs.length) →
        (runCalls doc (cs.take (i + 1))).current_step
          = (runCalls doc (cs.take i)).current_step
            + (if msgTruthy (cs.get ⟨i, h⟩).message then 1 else 0)) := by
  refine ⟨?_, runCalls_invariant doc cs h0, ?_⟩
  · have hmono : Monotone (fun n => (runCalls doc (cs.take n)).current_step) :=
      monotone_nat_of_le_succ (runCalls_step_mono doc cs)
    exact fun i j hij => hmono hij
  · intro i h
    rw [runCalls_take_succ doc cs i h, applyUpdate_current_step]

/-- Witness for C2 at a concrete record and call list: a creation-fresh
record, a running update with a message, then a completed update without. -/
theorem status_steps_monotone_and_bounded_witness :
    (createState 0).current_step ≤ (createState 0).total_steps ∧
    (runCalls (createState 0)
        ([⟨"running", some "step one", none, 1⟩,
          ⟨"completed", none, some 100, 2⟩] : List UpdateCall)).current_step
      ≤ (runCalls (createState 0)
          ([⟨"running", some "step one", none, 1⟩,
            ⟨"completed", none, some 100, 2⟩] : List UpdateCall)).total_steps := by
  refine ⟨by decide, ?_⟩
  have h := status_steps_monotone_and_bounded (createState 0) (by decide)
    ([⟨"running", some "step one", none, 1⟩,
      ⟨"completed", none, some 100, 2⟩] : List UpdateCall)
  simpa using h.2.1 2

/-! ## C5: `completed_at` behaviour of `update_step_status` -/

/-- C5 counterexample: the claim says `completed_at` is written exactly once,
by the first `completed` update, and later `completed` updates leave it
unchanged. On the code (status.py lines 102-103 set `completed_at` to `now`
on every `completed` update) a second `completed` update at a later time
overwrites the first value. -/
theorem completed_at_overwritten_counterexample :
    (applyUpdate (createState 0)
        (⟨"completed", none, none, 1⟩ : UpdateCall)).completed_at = some 1 ∧
    (applyUpdate (applyUpdate (createState 0)
          (⟨"completed", none, none, 1⟩ : UpdateCall))
        (⟨"completed", none, none, 2⟩ : UpdateCall)).completed_at = some 2 ∧
    (some 2 : Option Nat) ≠ some 1 := by
  refine ⟨rfl, rfl, by decide⟩

/-- C5 (amended): every update whose status is `completed` writes
`completed_at`, setting it to that update's current time (overwriting any
earlier value); every update with a different status leaves `completed_at`
unchanged. -/
theorem completed_at_set_on_every_completed_update
    (doc : StatusRecord) (c : UpdateCall) :
    (applyUpdate doc c).completed_at
      = if c.status == "completed" then some c.now else doc.completed_at :=
  applyUpdate_completed_at doc c

/-! ## Store-level status operations (app/database/status.py) -/

/-- One document of the `status` collection: the Mongo `_id` (modelled as a
numeric id, unique in the collection), the owning `prompt_id`, and the record
fields. -/
structure StatusDoc where
  id : Nat
  prompt_id : Nat
  record : StatusRecord
  deriving Repr, DecidableEq

/-- `BaseDB.get_one({"prompt_id": pid})`: the first document of the
collection matching the prompt id. -/
def get_one (s : List StatusDoc) (pid : Nat) : Option StatusDoc :=
  s.find? (fun d => d.prompt_id == pid)

/-- Number of status documents stored for a given prompt id. -/
def countFor (s : List StatusDoc) (pid : Nat) : Nat :=
  (s.filter (fun d => d.prompt_id == pid)).length

/-- `StatusDB.create_workflow_status` (status.py lines 31-56): if a document
for the prompt id exists, return its id and change nothing; otherwise run
`delete_many({"prompt_id": pid})` (which deletes nothing on this branch,
since `get_one` found no match) and insert one fresh zeroed `pending`
document. `fresh` is the Mongo-assigned id of the inserted document, `now`
the insertion-time clock value. -/
def create_workflow_status (s : List StatusDoc) (pid fresh now : Nat) :
    Nat × List StatusDoc :=
  match get_one s pid with
  | some existing => (existing.id, s)
  | none =>
      let cleaned := s.filter (fun d => !(d.prompt_id == pid))
      (fresh, cleaned ++ [⟨fresh, pid, createState now⟩])

/-- The projection returned by `StatusDB.get_workflow_progress`
(status.py lines 137-152); `none` models the empty dict returned when no
document exists. -/
def get_workflow_progress (s : List StatusDoc) (pid : Nat) :
    Option StatusRecord :=
  (get_one s pid).map (fun d => d.record)

theorem find?_filter_not {α : Type} (p : α → Bool) (s : List α) :
    (s.filter (fun d => !(p d))).find? p = none := by
  rw [List.find?_eq_none]
  intro x hx
  have := (List.mem_filter.mp hx).2
  simp at this
  simp [this]

theorem filter_of_find?_eq_none {α : Type} (p : α → Bool) (s : List α)
    (h : s.find? p = none) : s.filter (fun d => !(p d)) = s := by
  rw [List.filter_eq_self]
  intro a ha
  have := List.find?_eq_none.mp h a ha
  simp [this]

/-- C3: `createIfAbsent` is idempotent. When a record exists for the prompt
id it inserts nothing and returns the existing record's id; when none exists
it inserts exactly one fresh record with zero counters, zero progress, empty
message history and `pending` status; and starting from a store holding at
most one record for the id, after any call exactly one record is stored and
a repeated call is a no-op returning the same id. -/
theorem createIfAbsent_idempotent (s : List StatusDoc)
    (pid fresh now fresh2 now2 : Nat) (hcount : countFor s pid ≤ 1) :
    (∀ d, get_one s pid = some d →
        create_workflow_status s pid fresh now = (d.id, s)) ∧
    (get_one s pid = none →
        create_workflow_status s pid fresh now
          = (fresh, s ++ [⟨fresh, pid, createState now⟩])) ∧
    countFor (create_workflow_status s pid fresh now).2 pid = 1 ∧
    create_workflow_status (create_workflow_status s pid fresh now).2 pid
        fresh2 now2
      = ((create_workflow_status s pid fresh now).1,
         (create_workflow_status s pid fresh now).2) := by
  refine ⟨?_, ?_, ?_, ?_⟩
  · intro d hd
    simp [create_workflow_status, hd]
  · intro hnone
    simp only [create_workflow_status, hnone]
    rw [filter_of_find?_eq_none _ _ hnone]
  · match hfind : get_one s pid with
    | some d =>
        simp only [create_workflow_status, hfind]
        have hf : s.find? (fun x => x.prompt_id == pid) = some d := hfind
        have hmem : d ∈ s := List.mem_of_find?_eq_some hf
        have hpred := List.find?_some hf
        have : d ∈ s.filter (fun x => x.prompt_id == pid) :=
          List.mem_filter.mpr ⟨hmem, hpred⟩
        have h1 : 1 ≤ countFor s pid := by
          have := List.length_pos.mpr (List.ne_nil_of_mem this)
          simpa [countFor] using this
        omega
    | none =>
        simp only [create_workflow_status, hfind]
        have hz :
            (s.filter (fun d => !(d.prompt_id == pid))).filter
              (fun d => d.prompt_id == pid) = [] := by
          rw [List.filter_eq_nil_iff]
          intro a ha
          have := (List.mem_filter.mp ha).2
          simp at this
          simp [this]
        simp [countFor, List.filter_append, hz]
  · match hfind : get_one s pid with
    | some d =>
        simp [create_workflow_status, hfind]
    | none =>
        simp only [create_workflow_status, hfind]
        have hfind2 :
            get_one ((s.filter (fun d => !(d.prompt_id == pid)))
                ++ [⟨fresh, pid, createState now⟩]) pid
              = some ⟨fresh, pid, createState now⟩ := by
          unfold get_one
          rw [List.find?_append, find?_filter_not]
          simp
        simp [create_workflow_status, hfind2]

/-- Witness for C3 at the empty store. -/
theorem createIfAbsent_idempotent_witness :
    countFor [] 7 ≤ 1 ∧
    countFor (create_workflow_status [] 7 41 0).2 7 = 1 :=
  ⟨by decide, (createIfAbsent_idempotent [] 7 41 0 42 1 (by decide)).2.2.1⟩

/-! ## C4: duplicate reconciliation (app/database/status.py) -/

/-- Strict "smaller key" comparison on the sort key used by
`cleanup_duplicate_status_documents`: Python sorts the duplicates by the
tuple `(len(messages), started_at)` in descending order. -/
def dupKeyLt (a b : StatusDoc) : Bool :=
  a.record.messages.length < b.record.messages.length
    || (a.record.messages.length == b.record.messages.length
        && a.record.started_at < b.record.started_at)

/-- The document the cleanup pass keeps: the head of the descending stable
sort, i.e. the earliest document whose `(len(messages), started_at)` key is
maximal. -/
def pickKeep (d : StatusDoc) (ds : List StatusDoc) : StatusDoc :=
  ds.foldl (fun best x => if dupKeyLt best x then x else best) d

/-- `StatusDB.cleanup_duplicate_status_documents` (status.py lines 154-177):
with at most one document for the prompt id it does nothing; otherwise it
keeps the most-complete document and issues `delete_many` on the ids of all
the other matching documents (the sort order of that tail is irrelevant to
the deletion, which acts on the set of ids, so the tail is modelled as the
duplicate list minus the kept document). Returns the new collection and the
deleted count. -/
def cleanup_duplicate_status_documents (s : List StatusDoc) (pid : Nat) :
    List StatusDoc × Nat :=
  match s.filter (fun d => d.prompt_id == pid) with
  | [] => (s, 0)
  | [_] => (s, 0)
  | d :: rest =>
      let keep := pickKeep d rest
      let deleteIds := ((d :: rest).erase keep).map (fun x => x.id)
      (s.filter (fun x => !(deleteIds.contains x.id)), deleteIds.length)

/-- A store holding two StatusRecords for prompt id 7: document 1 with two
messages (started later) and document 2 with five messages (started
earlier). -/
def dupDocA : StatusDoc :=
  ⟨1, 7, { overall_status := "running", current_step := 2, total_steps := 2,
           progress := 20, messages := ["m1", "m2"], started_at := 5,
           completed_at := none }⟩

/-- The five-message duplicate for prompt id 7. -/
def dupDocB : StatusDoc :=
  ⟨2, 7, { overall_status := "running", current_step := 5, total_steps := 5,
           progress := 60, messages := ["m1", "m2", "m3", "m4", "m5"],
           started_at := 3, completed_at := none }⟩

/-- The duplicated store for prompt id 7. -/
def dupStore : List StatusDoc := [dupDocA, dupDocB]

/-- C4, evaluated at the failing input: on a store with two records for the
same instance id, `create_workflow_status` performs no reconciliation — it
returns the id of the *first* record found (not the most-complete one) and
leaves both records in place — contradicting the claim that `createIfAbsent`
reconciles duplicates before insert/lookup. The keep-most-messages policy
the claim describes lives only in `cleanup_duplicate_status_documents`,
which no code path invokes: run there, it keeps the five-message record,
deletes the other, and `get_workflow_progress` then returns the kept one. -/
theorem createIfAbsent_does_not_reconcile_duplicates :
    create_workflow_status dupStore 7 99 10 = (1, dupStore) ∧
    countFor dupStore 7 = 2 ∧
    (cleanup_duplicate_status_documents dupStore 7).1 = [dupDocB] ∧
    (cleanup_duplicate_status_documents dupStore 7).2 = 1 ∧
    countFor (cleanup_duplicate_status_documents dupStore 7).1 7 = 1 ∧
    get_workflow_progress (cleanup_duplicate_status_documents dupStore 7).1 7
      = some dupDocB.record := by
  refine ⟨by decide, by decide, by decide, by decide, by decide, by decide⟩

/-! ## C1: phase-failure abort in `run_complete_workflow`
(app/services/workflow/main.py) -/

/-- The results returned by the external collaborators during one run of
`PinterestWorkflowHandler.run_complete_workflow`: whether browser startup
and login succeed (`initialize_session`), whether `feed_algorithm` reports
success (warmup), how many pins `scrape_feed` returns, and whether
`enrich_with_titles` completes without raising. -/
structure CollabResults where
  init_ok : Bool
  warmup_ok : Bool
  scraped_pins : Nat
  enrich_ok : Bool
  deriving Repr, DecidableEq

/-- Observable outcome of one `run_complete_workflow` run: the ordered list
of phases whose collaborator was actually invoked, the final status of each
created Session (stage, status), the final prompt status written, and the
returned workflow result fields. -/
structure RunOutcome where
  invoked : List String
  sessions : List (String × String)
  prompt_status : Option String
  success : Bool
  error : Option String
  deriving Repr, DecidableEq

/-- `PinterestWorkflowHandler.run_complete_workflow` (main.py lines
532-611) together with the phase methods it drives. Key structure from the
source: initialization failure returns early; the warmup phase's boolean
result is assigned to `warmup_success` (line 570) but never read, so the
scraping phase runs unconditionally afterwards; scraping with zero pins
returns early with prompt status `error`; the enrichment phase reuses the
scraping Session, marks it `completed`/`failed`, and decides the final
`ready`/`error` prompt status. The warmup Session is marked `ready` on
success and `failed` on failure. -/
def run_complete_workflow (c : CollabResults) : RunOutcome :=
  if !c.init_ok then
    { invoked := ["initialize"], sessions := [],
      prompt_status := some "error", success := false,
      error := some "Session initialization failed" }
  else
    let warmupSession := if c.warmup_ok then "ready" else "failed"
    if c.scraped_pins = 0 then
      { invoked := ["initialize", "warmup", "scraping"],
        sessions := [("warmup", warmupSession), ("scraping", "failed")],
        prompt_status := some "error", success := false,
        error := some "No pins scraped" }
    else if c.enrich_ok then
      { invoked := ["initialize", "warmup", "scraping", "enrichment"],
        sessions := [("warmup", warmupSession), ("scraping", "completed")],
        prompt_status := some "ready", success := true, error := none }
    else
      { invoked := ["initialize", "warmup", "scraping", "enrichment"],
        sessions := [("warmup", warmupSession), ("scraping", "failed")],
        prompt_status := some "error", success := false,
        error := some "Title enrichment failed" }

/-- C1, evaluated at the failing input (warmup fails, every other
collaborator succeeds with 3 pins): the scraping phase *is* invoked after
the warmup failure, the run reports success and the prompt ends `ready`,
contradicting the claim that a failed phase aborts all later phases and
forces a final `error` status. (The warmup Session itself is correctly
marked `failed`.) -/
theorem warmup_failure_does_not_abort :
    run_complete_workflow ⟨true, false, 3, true⟩
      = { invoked := ["initialize", "warmup", "scraping", "enrichment"],
          sessions := [("warmup", "failed"), ("scraping", "completed")],
          prompt_status := some "ready", success := true, error := none } ∧
    "scraping" ∈ (run_complete_workflow ⟨true, false, 3, true⟩).invoked ∧
    (run_complete_workflow ⟨true, false, 3, true⟩).success = true := by
  refine ⟨by decide, by decide, by decide⟩

/-! ## C6: status emission in `run_ai_validation_workflow`
(app/services/workflow/main.py) -/

/-- One `setStatus` call site: the status, message and progress arguments,
and whether the source actually awaits the coroutine (`await
self.setStatus(...)`) or merely creates and discards it
(`self.setStatus(...)`). -/
structure StatusCall where
  status : String
  message : String
  progress : Option Rat
  awaited : Bool
  deriving Repr, DecidableEq

/-- The `setStatus` call sites executed on the success path of
`WorkflowOrchestrator.run_ai_validation_workflow` (main.py lines 179-203),
parameterized by the evaluation result counts interpolated into the
messages. In the source none of these seven-line-separated calls carries
`await`: each one only creates a coroutine object that is never run. -/
def aiValidationStatusCalls (evaluated approved disqualified : Nat) :
    List StatusCall :=
  [⟨"running", "Initializing AI validation system", none, false⟩,
   ⟨"completed", "AI validation system initialized", some 100, false⟩,
   ⟨"running", "Evaluating pins with AI model", none, false⟩,
   ⟨"completed", "Evaluated " ++ toString evaluated ++ " pins",
     some 100, false⟩,
   ⟨"running", "Finalizing validation results", none, false⟩,
   ⟨"completed",
     "Validation completed: " ++ toString approved ++ " approved, "
       ++ toString disqualified ++ " disqualified", some 100, false⟩]

/-- Python-coroutine semantics of a list of `setStatus` call sites run
against the instance's StatusRecord and the list of events broadcast so
far: an awaited call applies `update_step_status` and broadcasts one event
through the WebSocket manager; a call whose coroutine is never awaited has
no effect at all. The clock argument of the underlying update is irrelevant
to the stated properties and fixed at 0. -/
def runStatusCalls (doc : StatusRecord) (published : List StatusCall) :
    List StatusCall → StatusRecord × List StatusCall
  | [] => (doc, published)
  | c :: cs =>
      if c.awaited then
        runStatusCalls
          (applyUpdate doc ⟨c.status, some c.message, c.progress, 0⟩)
          (published ++ [c]) cs
      else runStatusCalls doc published cs

/-- C6, evaluated on the AI-validation phase: the claim requires a
`running` update applied and broadcast before each step's collaborator call
and a `completed`/`failed` update after it. The call sites do contain those
updates (the phase starts with a `running` one), but since none of them is
awaited, running the whole phase applies no update to the StatusRecord and
broadcasts nothing. -/
theorem ai_validation_status_updates_never_applied (doc : StatusRecord)
    (evaluated approved disqualified : Nat) :
    ((aiValidationStatusCalls evaluated approved disqualified).filter
        (fun c => c.awaited)) = [] ∧
    runStatusCalls doc []
        (aiValidationStatusCalls evaluated approved disqualified)
      = (doc, []) ∧
    ((aiValidationStatusCalls evaluated approved disqualified).head?.map
        (fun c => c.status)) = some "running" := by
  refine ⟨?_, ?_, ?_⟩ <;>
    simp [aiValidationStatusCalls, runStatusCalls, List.filter]

/-! ## C7: WebSocketManager.send_status_update
(app/services/websocket/manager.py) -/

/-- The manager's `active_connections` dictionary: prompt id keyed
collection of connected sinks. Sinks (WebSocket objects) are modelled as
numeric ids; the Python per-prompt `set` is modelled as the list of its
elements. -/
abbrev Hub := List (Nat × List Nat)

/-- Dictionary lookup `active_connections[prompt_id]`. -/
def hubLookup (h : Hub) (pid : Nat) : Option (List Nat) :=
  (h.find? (fun e => e.1 == pid)).map (fun e => e.2)

/-- The subscriber set of a prompt id (empty when no entry exists). -/
def subsOf (h : Hub) (pid : Nat) : List Nat :=
  (hubLookup h pid).getD []

/-- `WebSocketManager.disconnect` (manager.py lines 28-37): discard the
sink from the prompt's set; when the set becomes empty, delete the prompt's
entry entirely. -/
def disconnect (h : Hub) (ws pid : Nat) : Hub :=
  match hubLookup h pid with
  | none => h
  | some conns =>
      let conns' := conns.filter (fun c => !(c == ws))
      if conns'.isEmpty then h.filter (fun e => !(e.1 == pid))
      else h.map (fun e => if e.1 = pid then (e.1, conns') else e)

/-- `WebSocketManager.send_status_update` (manager.py lines 39-79): with no
entry for the prompt id, return without error; otherwise iterate over a
copy of the subscriber set, attempting delivery to each sink — a failing
`send_text` is caught per sink and the sink only collected — and finally
`disconnect` every collected failed sink. `fails` records which sinks'
delivery raises. Returns the new registry together with the list of sinks
delivered to, in iteration order; the function is total, so no delivery
error ever reaches the publisher. -/
def send_status_update (h : Hub) (pid : Nat) (fails : Nat → Bool) :
    Hub × List Nat :=
  match hubLookup h pid with
  | none => (h, [])
  | some conns =>
      let delivered := conns.filter (fun c => !(fails c))
      let failed := conns.filter (fun c => fails c)
      (failed.foldl (fun acc ws => disconnect acc ws pid) h, delivered)

theorem hubLookup_cons (e : Nat × List Nat) (t : Hub) (pid : Nat) :
    hubLookup (e :: t) pid
      = if e.1 = pid then some e.2 else hubLookup t pid := by
  unfold hubLookup
  by_cases he : e.1 = pid
  · rw [List.find?_cons_of_pos _ (by simp [he]), if_pos he]
    rfl
  · rw [List.find?_cons_of_neg _ (by simp [he]), if_neg he]

theorem hubLookup_map_update (h : Hub) (pid : Nat) (v : List Nat) :
    hubLookup (h.map (fun e => if e.1 = pid then (e.1, v) else e)) pid
      = (hubLookup h pid).map (fun _ => v) := by
  induction h with
  | nil => rfl
  | cons e t ih =>
      by_cases he : e.1 = pid
      · simp [he, hubLookup_cons]
      · simp only [List.map_cons, if_neg he, hubLookup_cons, ih]

theorem hubLookup_map_update_other (h : Hub) (pid q : Nat) (v : List Nat)
    (hne : q ≠ pid) :
    hubLookup (h.map (fun e => if e.1 = pid then (e.1, v) else e)) q
      = hubLookup h q := by
  induction h with
  | nil => rfl
  | cons e t ih =>
      by_cases hp : e.1 = pid
      · have hq : e.1 ≠ q := by rw [hp]; exact fun contra => hne contra.symm
        simp only [List.map_cons, if_pos hp, hubLookup_cons, if_neg hq, ih]
      · simp only [List.map_cons, if_neg hp, hubLookup_cons, ih]

theorem hubLookup_filter_out (h : Hub) (pid : Nat) :
    hubLookup (h.filter (fun e => !(e.1 == pid))) pid = none := by
  unfold hubLookup
  rw [find?_filter_not]
  rfl

theorem hubLookup_filter_out_other (h : Hub) (pid q : Nat) (hne : q ≠ pid) :
    hubLookup (h.filter (fun e => !(e.1 == pid))) q = hubLookup h q := by
  induction h with
  | nil => rfl
  | cons e t ih =>
      by_cases hp : e.1 = pid
      · have hq : e.1 ≠ q := by rw [hp]; exact fun contra => hne contra.symm
        have hb : (!(e.1 == pid)) = false := by simp [hp]
        simp only [List.filter_cons, hb, Bool.false_eq_true, if_false]
        rw [ih, hubLookup_cons, if_neg hq]
      · simp only [List.filter_cons]
        have hb : (!(e.1 == pid)) = true := by simp [hp]
        rw [hb]
        simp only [if_pos trivial, hubLookup_cons, ih]

theorem subsOf_disconnect (h : Hub) (ws pid : Nat) :
    subsOf (disconnect h ws pid) pid
      = (subsOf h pid).filter (fun c => !(c == ws)) := by
  unfold disconnect
  match hl : hubLookup h pid with
  | none => simp [subsOf, hl]
  | some conns =>
      simp only
      by_cases hemp : (conns.filter (fun c => !(c == ws))).isEmpty
      · rw [if_pos hemp]
        have hnil : conns.filter (fun c => !(c == ws)) = [] :=
          List.isEmpty_iff.mp hemp
        simp [subsOf, hubLookup_filter_out, hl, hnil]
      · rw [if_neg hemp]
        simp [subsOf, hubLookup_map_update, hl]

theorem hubLookup_disconnect_other (h : Hub) (ws pid q : Nat)
    (hne : q ≠ pid) :
    hubLookup (disconnect h ws pid) q = hubLookup h q := by
  unfold disconnect
  match hl : hubLookup h pid with
  | none => simp
  | some conns =>
      simp only
      by_cases hemp : (conns.filter (fun c => !(c == ws))).isEmpty
      · rw [if_pos hemp]
        exact hubLookup_filter_out_other h pid q hne
      · rw [if_neg hemp]
        exact hubLookup_map_update_other h pid q _ hne

theorem subsOf_disconnect_fold (l : List Nat) (h : Hub) (pid : Nat) :
    subsOf (l.foldl (fun acc ws => disconnect acc ws pid) h) pid
      = (subsOf h pid).filter (fun c => !(l.contains c)) := by
  induction l generalizing h with
  | nil => simp
  | cons w ws ih =>
      simp only [List.foldl_cons]
      rw [ih, subsOf_disconnect, List.filter_filter]
      apply List.filter_congr
      intro c _
      by_cases hc : c = w
      · subst hc
        simp
      · simp [hc, Ne.symm hc]

theorem hubLookup_disconnect_fold_other (l : List Nat) (h : Hub)
    (pid q : Nat) (hne : q ≠ pid) :
    hubLookup (l.foldl (fun acc ws => disconnect acc ws pid) h) q
      = hubLookup h q := by
  induction l generalizing h with
  | nil => rfl
  | cons w ws ih =>
      simp only [List.foldl_cons]
      rw [ih, hubLookup_disconnect_other h w pid q hne]

/-- C7: a publish to an instance id delivers to exactly the non-failing
subscribed sinks (one sink's delivery failure never prevents delivery to
any other sink), removes exactly the failing sinks from the instance's
subscriber set (through the `disconnect` path), leaves every other
instance's subscribers untouched, and surfaces no error to the publisher
(`send_status_update` is total and always returns the updated registry). -/
theorem publish_isolates_failing_sinks (h : Hub) (pid : Nat)
    (fails : Nat → Bool) :
    (send_status_update h pid fails).2
      = (subsOf h pid).filter (fun c => !(fails c)) ∧
    subsOf (send_status_update h pid fails).1 pid
      = (subsOf h pid).filter (fun c => !(fails c)) ∧
    (∀ q, q ≠ pid →
      hubLookup (send_status_update h pid fails).1 q = hubLookup h q) := by
  unfold send_status_update
  match hl : hubLookup h pid with
  | none =>
      refine ⟨by simp [subsOf, hl], by simp [subsOf, hl], fun q _ => rfl⟩
  | some conns =>
      have hsubs : subsOf h pid = conns := by simp [subsOf, hl]
      refine ⟨by simp [hsubs], ?_, ?_⟩
      · rw [subsOf_disconnect_fold, hsubs]
        apply List.filter_congr
        intro c hc
        by_cases hf : fails c
        · have hmem : c ∈ conns.filter (fun x => fails x) :=
            List.mem_filter.mpr ⟨hc, hf⟩
          simp [hf, hmem]
        · have hb : fails c = false := Bool.eq_false_iff.mpr hf
          have hnm : c ∉ conns.filter (fun x => fails x) := by
            intro hmem
            have := (List.mem_filter.mp hmem).2
            rw [hb] at this
            exact Bool.false_ne_true this
          simp [hb, hnm]
      · intro q hq
        exact hubLookup_disconnect_fold_other _ h pid q hq

/-! ## C8: status query for an unknown instance id
(app/routes/main.py::get_prompt_status) -/

/-- A raised Python exception relevant to the route handlers: FastAPI's
`HTTPException` (a subclass of `Exception`), a pymongo error, or any other
exception. -/
inductive PyExc where
  | http (code : Nat) (detail : String)
  | db (msg : String)
  | other (msg : String)
  deriving Repr, DecidableEq

/-- Python `str(e)` for the exceptions above (an `HTTPException` prints as
`"<code>: <detail>"`). -/
def pyExcStr : PyExc → String
  | .http code detail => toString code ++ ": " ++ detail
  | .db m => m
  | .other m => m

/-- A document of the `prompts` collection (fields used by the route). -/
structure PromptDoc where
  id : Nat
  text : String
  status : String
  deriving Repr, DecidableEq

/-- A document of the `sessions` collection (fields used by the route). -/
structure SessionDoc where
  id : Nat
  prompt_id : Nat
  stage : String
  status : String
  log : List String
  deriving Repr, DecidableEq

/-- The JSON payload assembled by `get_prompt_status` on success. -/
structure StatusResponse where
  prompt_text : String
  prompt_status : String
  sessions : List (String × String × List String)
  overall_progress : Rat
  current_stage : String
  deriving Repr, DecidableEq

/-- The body of the `try:` block of `get_prompt_status` (routes/main.py
lines 205-248): an unknown prompt id raises `HTTPException(404, "Prompt not
found")`; otherwise the response is assembled from the prompt, its
sessions, and the status document (with progress 0 and stage `pending`
defaults when the status document is missing). The query reads the stores
and returns a value; it mutates nothing. -/
def get_prompt_status_body (prompts : List PromptDoc)
    (sessions : List SessionDoc) (statusStore : List StatusDoc)
    (pid : Nat) : Except PyExc StatusResponse :=
  match prompts.find? (fun p => p.id == pid) with
  | none => .error (.http 404 "Prompt not found")
  | some p =>
      let status_data := get_workflow_progress statusStore pid
      .ok
        { prompt_text := p.text
          prompt_status := p.status
          sessions :=
            (sessions.filter (fun s => s.prompt_id == pid)).map
              (fun s => (s.stage, s.status, s.log))
          overall_progress := (status_data.map (fun d => d.progress)).getD 0
          current_stage :=
            (status_data.map (fun d => d.overall_status)).getD "pending" }

/-- `get_prompt_status` (routes/main.py lines 200-254): the handler wraps
its body in `try: ... except Exception as e: raise HTTPException(500,
f"Failed to get prompt status: {str(e)}")`. Since FastAPI's
`HTTPException` is itself a subclass of `Exception`, the 404 raised inside
the body is caught by this clause and re-raised as a 500. -/
def get_prompt_status (prompts : List PromptDoc)
    (sessions : List SessionDoc) (statusStore : List StatusDoc)
    (pid : Nat) : Except PyExc StatusResponse :=
  match get_prompt_status_body prompts sessions statusStore pid with
  | .ok v => .ok v
  | .error e =>
      .error (.http 500 ("Failed to get prompt status: " ++ pyExcStr e))

/-- C8, evaluated at the failing input (a query for prompt id 5 against
empty stores, i.e. an unknown instance id): the caller receives a generic
500 server error wrapping the 404 text, not the not-found error the claim
requires — the 404 raised in the body is swallowed by the handler's blanket
`except Exception` clause. (The query itself is read-only, so state is
unchanged; the divergence is the status code.) -/
theorem unknown_instance_query_returns_500 :
    get_prompt_status [] [] [] 5
      = .error (.http 500 "Failed to get prompt status: 404: Prompt not found") ∧
    get_prompt_status [] [] [] 5 ≠ .error (.http 404 "Prompt not found") := by
  have h1 : get_prompt_status [] [] [] 5
      = .error (.http 500 "Failed to get prompt status: 404: Prompt not found") :=
    rfl
  refine ⟨h1, ?_⟩
  intro hcontra
  rw [h1] at hcontra
  simp at hcontra

/-! ## C9: approval threshold in `process_prompt_background`
(app/routers/prompts.py) -/

/-- The approval status stored with each evaluated pin by
`process_prompt_background` (routers/prompts.py line 97):
`"approved" if match_score >= 0.7 else "disqualified"`. -/
def pinApprovalStatus (match_score : Rat) : String :=
  if 7/10 ≤ match_score then "approved" else "disqualified"

/-- C9 counterexample: the claim says the stored status is `approved`
exactly when the match score is ≥ 0.5. At score 0.6 the code stores
`disqualified` although 0.6 ≥ 0.5, so the claim is false as stated. -/
theorem approval_threshold_counterexample :
    (1/2 : Rat) ≤ 6/10 ∧ pinApprovalStatus (6/10) = "disqualified" ∧
    pinApprovalStatus (6/10) ≠ "approved" := by
  have h6 : pinApprovalStatus (6/10 : Rat) = "disqualified" := by
    norm_num [pinApprovalStatus]
  refine ⟨by norm_num, h6, by rw [h6]; decide⟩

/-- C9 (amended): the stored approval status is `approved` exactly when
the match score is ≥ 0.7 and `disqualified` exactly when it is < 0.7; for
the scores [0.82, 0.3, 0.91] this still yields exactly 2 approved and 1
disqualified. -/
theorem approval_threshold_correct (s : Rat) :
    (pinApprovalStatus s = "approved" ↔ 7/10 ≤ s) ∧
    (pinApprovalStatus s = "disqualified" ↔ s < 7/10) ∧
    (([82/100, 3/10, 91/100] : List Rat).filter
        (fun x => pinApprovalStatus x == "approved")).length = 2 ∧
    (([82/100, 3/10, 91/100] : List Rat).filter
        (fun x => pinApprovalStatus x == "disqualified")).length = 1 := by
  refine ⟨?_, ?_, ?_, ?_⟩
  · unfold pinApprovalStatus
    by_cases hs : (7/10 : Rat) ≤ s
    · simp [hs]
    · simp [hs]
  · unfold pinApprovalStatus
    by_cases hs : (7/10 : Rat) ≤ s
    · simp [hs, not_lt.mpr hs]
    · simp [hs, lt_of_not_le hs]
  · have h82 : pinApprovalStatus (82/100 : Rat) = "approved" := by
      norm_num [pinApprovalStatus]
    have h30 : pinApprovalStatus (3/10 : Rat) = "disqualified" := by
      norm_num [pinApprovalStatus]
    have h91 : pinApprovalStatus (91/100 : Rat) = "approved" := by
      norm_num [pinApprovalStatus]
    simp [List.filter_cons, h82, h30, h91]
  · have h82 : pinApprovalStatus (82/100 : Rat) = "approved" := by
      norm_num [pinApprovalStatus]
    have h30 : pinApprovalStatus (3/10 : Rat) = "disqualified" := by
      norm_num [pinApprovalStatus]
    have h91 : pinApprovalStatus (91/100 : Rat) = "approved" := by
      norm_num [pinApprovalStatus]
    simp [List.filter_cons, h82, h30, h91]

/-! ## C10: result-query aggregates (app/routes/main.py::get_prompt_pins) -/

/-- A document of the `pins` collection. A Mongo document distinguishes a
field that is absent from one present with value `None` (`null`): the
outer `Option` is key presence, the inner one the stored value.
`PinDB.create_pins_from_scraped_data` (pins.py lines 45-80) inserts
`PinSchema(...).dict()`, which writes every schema field, so a
never-evaluated pin carries an explicit `match_score: None` and
`status: "ready"` — the keys are present with a `None`/interim value. -/
structure PinRecord where
  id : Nat
  prompt_id : Nat
  image_url : String
  pin_url : String
  title : Option (Option String)
  description : Option (Option String)
  match_score : Option (Option Rat)
  status : Option (Option String)
  ai_explanation : Option (Option String)
  deriving Repr, DecidableEq

/-- Python's `dict.get(key, default)`: the default is returned only when
the key is absent; a key present with value `None` yields `None`. -/
def pyGet {α : Type} (field : Option (Option α)) (default : α) : Option α :=
  match field with
  | none => some default
  | some v => v

/-- The per-pin dictionary assembled by `get_prompt_pins` (routes/main.py
lines 274-287): each value is `pin.get(key, default)`, so a value can
still be `None` when the stored field is an explicit `None`. -/
structure FormattedPin where
  id : Nat
  image_url : String
  pin_url : String
  title : Option String
  description : Option String
  match_score : Option Rat
  status : Option String
  ai_explanation : Option String
  deriving Repr, DecidableEq

/-- The formatting step of `get_prompt_pins`. -/
def format_pin (p : PinRecord) : FormattedPin :=
  { id := p.id
    image_url := p.image_url
    pin_url := p.pin_url
    title := pyGet p.title ""
    description := pyGet p.description ""
    match_score := pyGet p.match_score 0
    status := pyGet p.status "pending"
    ai_explanation := pyGet p.ai_explanation "" }

/-- Python's bankers rounding (`round`) of a rational to an integer. -/
def roundHalfEven (q : Rat) : Int :=
  let f := ⌊q⌋
  let r := q - f
  if r < 1/2 then f
  else if 1/2 < r then f + 1
  else if f % 2 = 0 then f else f + 1

/-- Python's `round(x, 2)`. -/
def round2 (q : Rat) : Rat := (roundHalfEven (q * 100) : Rat) / 100

/-- The aggregate block of `get_prompt_pins` (routes/main.py lines
289-301). -/
structure PinStats where
  total_count : Nat
  approved_count : Nat
  disqualified_count : Nat
  avg_score : Rat
  deriving Repr, DecidableEq

/-- The message of the `TypeError` Python raises when `sum` adds `None`
to a numeric accumulator. -/
def pySumTypeErrorMsg : String :=
  "unsupported operand type(s) for +: 'float' and 'NoneType'"

/-- Python's `sum` over the formatted match scores, accumulating left to
right: adding a `None` raises `TypeError` at that element. -/
def pySumFrom (acc : Rat) : List (Option Rat) → Except PyExc Rat
  | [] => .ok acc
  | none :: _ => .error (.other pySumTypeErrorMsg)
  | some q :: xs => pySumFrom (acc + q) xs

/-- `sum(p['match_score'] for p in formatted_pins)`. -/
def pySum (xs : List (Option Rat)) : Except PyExc Rat := pySumFrom 0 xs

/-- The statistics computed by `get_prompt_pins` (routes/main.py lines
289-301): the counts are computed first; the average evaluates the sum of
the formatted match scores only when pins exist, and that sum raises
`TypeError` when any formatted score is `None` — the raised error aborts
the handler before any aggregates are returned. -/
def get_prompt_pins_stats (pins : List PinRecord) : Except PyExc PinStats :=
  let fp := pins.map format_pin
  let total := fp.length
  let approved := (fp.filter (fun p => p.status == some "approved")).length
  let disqualified :=
    (fp.filter (fun p => p.status == some "disqualified")).length
  if 0 < total then
    match pySum (fp.map (fun p => p.match_score)) with
    | .ok s => .ok ⟨total, approved, disqualified, round2 (s / (total : Rat))⟩
    | .error e => .error e
  else .ok ⟨total, approved, disqualified, round2 0⟩

/-- `get_prompt_pins`' blanket `except Exception` (routes/main.py lines
303-307) turns any exception escaping the aggregate block into a 500,
exactly as in `get_prompt_status`. (The prompt-existence check preceding
the aggregates is the subject of C8 and elided here.) -/
def get_prompt_pins (pins : List PinRecord) : Except PyExc PinStats :=
  match get_prompt_pins_stats pins with
  | .ok v => .ok v
  | .error e =>
      .error (.http 500 ("Failed to get prompt pins: " ++ pyExcStr e))

theorem length_filter_two_disjoint {α : Type} (p q : α → Bool) :
    ∀ l : List α, (∀ a ∈ l, p a = false ∨ q a = false) →
      (l.filter p).length + (l.filter q).length ≤ l.length := by
  intro l
  induction l with
  | nil => intro _; simp
  | cons a t ih =>
      intro hdisj
      have iht := ih (fun x hx => hdisj x (List.mem_cons_of_mem a hx))
      cases hp : p a <;> cases hq : q a
      · simp [List.filter_cons, hp, hq]
        omega
      · simp [List.filter_cons, hp, hq]
        omega
      · simp [List.filter_cons, hp, hq]
        omega
      · exfalso
        rcases hdisj a (List.mem_cons_self a t) with h | h
        · rw [hp] at h
          exact absurd h (by decide)
        · rw [hq] at h
          exact absurd h (by decide)

theorem length_filter_two_disjoint_lt {α : Type} (p q : α → Bool) :
    ∀ l : List α, (∀ a ∈ l, p a = false ∨ q a = false) →
      ∀ a0 ∈ l, p a0 = false → q a0 = false →
        (l.filter p).length + (l.filter q).length < l.length := by
  intro l
  induction l with
  | nil =>
      intro _ a0 ha0
      exact absurd ha0 (List.not_mem_nil a0)
  | cons a t ih =>
      intro hdisj a0 ha0 hp0 hq0
      have ht := fun x hx => hdisj x (List.mem_cons_of_mem a hx)
      rcases List.mem_cons.mp ha0 with heq | hmem
      · subst heq
        have := length_filter_two_disjoint p q t ht
        simp [List.filter_cons, hp0, hq0]
        omega
      · have hlt := ih ht a0 hmem hp0 hq0
        cases hp : p a <;> cases hq : q a
        · simp [List.filter_cons, hp, hq]
          omega
        · simp [List.filter_cons, hp, hq]
          omega
        · simp [List.filter_cons, hp, hq]
          omega
        · exfalso
          rcases hdisj a (List.mem_cons_self a t) with h | h
          · rw [hp] at h
            exact absurd h (by decide)
          · rw [hq] at h
            exact absurd h (by decide)

theorem format_pin_status_approved (a : PinRecord) :
    ((fun p => p.status == some "approved") ∘ format_pin) a
      = (a.status == some (some "approved")) := by
  rcases hs : a.status with _ | v
  · simp [format_pin, pyGet, hs]
  · rcases v with _ | s
    · simp [format_pin, pyGet, hs]
    · simp [format_pin, pyGet, hs]

theorem format_pin_status_disqualified (a : PinRecord) :
    ((fun p => p.status == some "disqualified") ∘ format_pin) a
      = (a.status == some (some "disqualified")) := by
  rcases hs : a.status with _ | v
  · simp [format_pin, pyGet, hs]
  · rcases v with _ | s
    · simp [format_pin, pyGet, hs]
    · simp [format_pin, pyGet, hs]

theorem pins_status_disjoint (pins : List PinRecord) :
    ∀ a ∈ pins, (a.status == some (some "approved")) = false
      ∨ (a.status == some (some "disqualified")) = false := by
  intro a _
  by_cases h : a.status = some (some "approved")
  · right
    rw [h]
    decide
  · left
    exact beq_eq_false_iff_ne.mpr h

theorem round2_zero : round2 0 = 0 := by
  norm_num [round2, roundHalfEven]

theorem pySumFrom_all_some (xs : List (Option Rat)) :
    ∀ acc, (∀ x ∈ xs, x.isSome) →
      pySumFrom acc xs = .ok (acc + (xs.map (fun x => x.getD 0)).sum) := by
  induction xs with
  | nil =>
      intro acc _
      simp [pySumFrom]
  | cons x t ih =>
      intro acc hall
      rcases x with _ | q
      · have := hall none (List.mem_cons_self _ _)
        simp at this
      · show pySumFrom (acc + q) t = _
        rw [ih (acc + q) (fun y hy => hall y (List.mem_cons_of_mem _ hy))]
        simp [add_assoc]

theorem pySumFrom_has_none (xs : List (Option Rat)) :
    ∀ acc, (∃ x ∈ xs, x = none) →
      pySumFrom acc xs = .error (.other pySumTypeErrorMsg) := by
  induction xs with
  | nil =>
      rintro acc ⟨x, hx, _⟩
      exact absurd hx (List.not_mem_nil x)
  | cons x t ih =>
      rintro acc ⟨y, hy, hynone⟩
      rcases x with _ | q
      · rfl
      · rcases List.mem_cons.mp hy with heq | hmem
        · rw [heq] at hynone
          exact Option.noConfusion hynone
        · show pySumFrom (acc + q) t = _
          exact ih (acc + q) ⟨y, hmem, hynone⟩

/-- C10 counterexample: a store with one evaluated pin and one
never-evaluated (skipped) pin — the skipped pin stored, as
`create_pins_from_scraped_data` always stores it, with an explicit
`match_score: None` and `status: "ready"`. The claim asserts the query
returns aggregates with the missing score treated as 0.0 and
`total_count` strictly exceeding `approved_count + disqualified_count`;
the code instead raises `TypeError` in the average sum and the query
returns a 500 error — no aggregates are produced at all. -/
theorem skipped_pin_query_crashes_counterexample :
    get_prompt_pins
        [⟨1, 7, "u1", "p1", some (some "t1"), some none, some (some 1),
          some (some "approved"), some (some "e1")⟩,
         ⟨2, 7, "u2", "p2", some none, some none, some none,
          some (some "ready"), some none⟩]
      = .error (.http 500
          ("Failed to get prompt pins: " ++ pySumTypeErrorMsg)) ∧
    get_prompt_pins_stats
        [⟨1, 7, "u1", "p1", some (some "t1"), some none, some (some 1),
          some (some "approved"), some (some "e1")⟩,
         ⟨2, 7, "u2", "p2", some none, some none, some none,
          some (some "ready"), some none⟩]
      = .error (.other pySumTypeErrorMsg) := by
  refine ⟨rfl, rfl⟩

/-- C10 (amended): `total_count` counts every stored pin and
`approved_count`/`disqualified_count` count exactly the correspondingly
marked pins (their sum at most `total_count`, strictly less when a pin
marked neither exists) — but aggregates are only returned when every
pin's formatted match score is numeric (a numeric stored value, or the
key absent, which defaults to 0.0); then `avg_score` is the mean of those
scores rounded to two decimal places, 0.0 when no pins exist. When any
pin's stored match score is an explicit `None` — as it is for every
never-evaluated pin — the average's sum raises `TypeError` and the query
returns a 500 error instead of aggregates. -/
theorem pins_aggregates_amended (pins : List PinRecord) :
    ((∀ p ∈ pins, ((format_pin p).match_score).isSome) →
      get_prompt_pins pins
        = .ok ⟨pins.length,
            (pins.filter
              (fun p => p.status == some (some "approved"))).length,
            (pins.filter
              (fun p => p.status == some (some "disqualified"))).length,
            round2 (if pins.length = 0 then 0
              else (pins.map
                  (fun p => ((format_pin p).match_score).getD 0)).sum
                / (pins.length : Rat))⟩) ∧
    ((pins.filter (fun p => p.status == some (some "approved"))).length
        + (pins.filter
            (fun p => p.status == some (some "disqualified"))).length
      ≤ pins.length) ∧
    ((∃ p ∈ pins, p.status ≠ some (some "approved")
        ∧ p.status ≠ some (some "disqualified")) →
      (pins.filter (fun p => p.status == some (some "approved"))).length
          + (pins.filter
              (fun p => p.status == some (some "disqualified"))).length
        < pins.length) ∧
    ((∃ p ∈ pins, (format_pin p).match_score = none) →
      get_prompt_pins pins
        = .error (.http 500
            ("Failed to get prompt pins: " ++ pySumTypeErrorMsg))) := by
  have happroved : ((pins.map format_pin).filter
        (fun p => p.status == some "approved")).length
      = (pins.filter (fun p => p.status == some (some "approved"))).length := by
    rw [List.filter_map, List.length_map]
    exact congrArg List.length
      (List.filter_congr (fun a _ => format_pin_status_approved a))
  have hdisq : ((pins.map format_pin).filter
        (fun p => p.status == some "disqualified")).length
      = (pins.filter
          (fun p => p.status == some (some "disqualified"))).length := by
    rw [List.filter_map, List.length_map]
    exact congrArg List.length
      (List.filter_congr (fun a _ => format_pin_status_disqualified a))
  refine ⟨?_, ?_, ?_, ?_⟩
  · intro hnum
    by_cases hn : pins.length = 0
    · have hnil : pins = [] := List.length_eq_zero.mp hn
      subst hnil
      simp [get_prompt_pins, get_prompt_pins_stats]
    · have hpos : 0 < pins.length := Nat.pos_of_ne_zero hn
      have hall : ∀ x ∈ (pins.map format_pin).map
          (fun p => p.match_score), x.isSome := by
        intro x hx
        rcases List.mem_map.mp hx with ⟨fp, hfp, rfl⟩
        rcases List.mem_map.mp hfp with ⟨p, hp, rfl⟩
        exact hnum p hp
      have hsum : pySum ((pins.map format_pin).map (fun p => p.match_score))
          = .ok ((((pins.map format_pin).map
              (fun p => p.match_score)).map (fun x => x.getD 0)).sum) := by
        rw [pySum, pySumFrom_all_some _ 0 hall, zero_add]
      have hstats : get_prompt_pins_stats pins
          = .ok ⟨pins.length,
              (pins.filter
                (fun p => p.status == some (some "approved"))).length,
              (pins.filter
                (fun p => p.status == some (some "disqualified"))).length,
              round2 ((pins.map
                  (fun p => ((format_pin p).match_score).getD 0)).sum
                / (pins.length : Rat))⟩ := by
        unfold get_prompt_pins_stats
        rw [if_pos (by simpa using hpos), hsum]
        rw [happroved, hdisq]
        simp only [List.map_map, List.length_map]
        rfl
      rw [get_prompt_pins, hstats, if_neg hn]
  · rw [← happroved, ← hdisq]
    have := length_filter_two_disjoint
        (fun p : FormattedPin => p.status == some "approved")
        (fun p : FormattedPin => p.status == some "disqualified")
        (pins.map format_pin)
        (by
          intro a _
          by_cases h : a.status = some "approved"
          · right
            show (a.status == some "disqualified") = false
            rw [h]
            decide
          · left
            exact beq_eq_false_iff_ne.mpr h)
    simpa using this
  · rintro ⟨p0, hp0mem, hp0a, hp0d⟩
    exact length_filter_two_disjoint_lt _ _ pins (pins_status_disjoint pins)
      p0 hp0mem (beq_eq_false_iff_ne.mpr hp0a) (beq_eq_false_iff_ne.mpr hp0d)
  · rintro ⟨p0, hp0mem, hp0none⟩
    have hne : pins ≠ [] := by
      rintro rfl
      exact absurd hp0mem (List.not_mem_nil p0)
    have hpos : 0 < pins.length := List.length_pos.mpr hne
    have hsum : pySum ((pins.map format_pin).map (fun p => p.match_score))
        = .error (.other pySumTypeErrorMsg) := by
      rw [pySum]
      exact pySumFrom_has_none _ 0
        ⟨(format_pin p0).match_score,
         List.mem_map.mpr
           ⟨format_pin p0, List.mem_map.mpr ⟨p0, hp0mem, rfl⟩, rfl⟩,
         hp0none⟩
    have hstats : get_prompt_pins_stats pins
        = .error (.other pySumTypeErrorMsg) := by
      unfold get_prompt_pins_stats
      rw [if_pos (by simpa using hpos), hsum]
    rw [get_prompt_pins, hstats]
    rfl

/-- Three pins for the C10 witness: an approved one with score 1, a
disqualified one with score 0, and one whose document lacks the optional
keys entirely (exercising the key-absent 0.0/`pending` defaults). -/
def allNumericPins : List PinRecord :=
  [⟨1, 7, "u1", "p1", some none, some none, some (some 1),
    some (some "approved"), some (some "x")⟩,
   ⟨2, 7, "u2", "p2", some none, some none, some (some 0),
    some (some "disqualified"), some (some "y")⟩,
   ⟨3, 7, "u3", "p3", none, none, none, none, none⟩]

/-- Witness for C10's amended claim at a store where every formatted
match score is numeric. -/
theorem pins_aggregates_amended_witness :
    (∀ p ∈ allNumericPins, ((format_pin p).match_score).isSome) ∧
    get_prompt_pins allNumericPins
      = .ok ⟨allNumericPins.length,
          (allNumericPins.filter
            (fun p => p.status == some (some "approved"))).length,
          (allNumericPins.filter
            (fun p => p.status == some (some "disqualified"))).length,
          round2 (if allNumericPins.length = 0 then 0
            else (allNumericPins.map
                (fun p => ((format_pin p).match_score).getD 0)).sum
              / (allNumericPins.length : Rat))⟩ :=
  ⟨by decide, (pins_aggregates_amended allNumericPins).1 (by decide)⟩

/-- Witness for C7 at a concrete hub: prompt 1 has sinks 10, 11, 12 of
which 11 fails, prompt 2 has sink 20 and is untouched. -/
theorem publish_isolates_failing_sinks_witness :
    (2 : Nat) ≠ 1 ∧
    hubLookup (send_status_update [(1, [10, 11, 12]), (2, [20])] 1
        (fun c => c == 11)).1 2
      = hubLookup [(1, [10, 11, 12]), (2, [20])] 2 :=
  ⟨by decide,
   (publish_isolates_failing_sinks [(1, [10, 11, 12]), (2, [20])] 1
      (fun c => c == 11)).2.2 2 (by decide)⟩

/-- Witness for C9's amended threshold at score 0.8. -/
theorem approval_threshold_correct_witness :
    (7/10 : Rat) ≤ 8/10 ∧ pinApprovalStatus (8/10) = "approved" :=
  ⟨by norm_num, (approval_threshold_correct (8/10)).1.mpr (by norm_num)⟩
